import Mathlib

/-!
Verification of the timesheet report generator (generate_report.py).

Embedding conventions:
* Calendar dates are day numbers (Nat). Day 0 is Monday 2024-01-01, so the
  weekday of day d in Python's convention (Monday = 0 .. Sunday = 6) is d % 7.
* Hours and the actual-time column are rationals, modelling Python floats
  without rounding.
* pandas DataFrames are lists of records; fallible pandas operations are
  modelled with Except, carrying the message of the exception pandas raises.
-/

set_option autoImplicit false

namespace Timesheet

/-- pd.date_range(start, end): the consecutive days from s to e inclusive,
empty when e < s. -/
def dateRange (s e : Nat) : List Nat :=
  List.range' s (e + 1 - s)

/-- date.weekday() in [5, 6]: the date is a Saturday (5) or a Sunday (6). -/
def isWeekend (d : Nat) : Bool :=
  d % 7 == 5 || d % 7 == 6

/-- Source lines 69-70, the loop "while date in holiday_list: date += 1".
Terminates because each step grows the date and the holiday list is finite. -/
def skipHolidays (holiday_list : List Nat) (date : Nat) : Nat :=
  if h : date ∈ holiday_list then skipHolidays holiday_list (date + 1) else date
termination_by holiday_list.foldr max 0 + 1 - date
decreasing_by
  have hle : date ≤ holiday_list.foldr max 0 := by
    induction holiday_list with
    | nil => cases h
    | cons a t ih =>
      rcases List.mem_cons.mp h with h1 | h1
      · simp [List.foldr, h1, Nat.le_max_left]
      · exact le_trans (ih h1) (by simp [List.foldr, Nat.le_max_right])
  omega

/-- Source lines 67-68: a date whose weekday is in [5, 6] is advanced by
7 - weekday days, landing on the following Monday; other dates are kept. -/
def weekendAdvance (date : Nat) : Nat :=
  if date % 7 == 5 || date % 7 == 6 then date + (7 - date % 7) else date

/-- Source lines 65-71: if the date is a weekend day, advance it to the
following Monday; then advance one day at a time while it is a holiday. -/
def validate_start_date_end_date (date : Nat) (holiday_list : List Nat) : Nat :=
  skipHolidays holiday_list (weekendAdvance date)

/-- Source lines 74-97: the hard-coded 2024 holiday dates as day numbers
(2024-01-01 is day 0):
  2024/01/01 = 0, 2024/02/12 = 42, 2024/02/26 = 56, 2024/04/08 = 98,
  2024/04/15 = 105, 2024/04/16 = 106, 2024/05/01 = 121, 2024/05/06 = 126,
  2024/05/22 = 142, 2024/06/03 = 154, 2024/07/22 = 203, 2024/07/29 = 210,
  2024/08/12 = 224, 2024/10/14 = 287, 2024/10/23 = 296, 2024/12/05 = 339,
  2024/12/10 = 344, 2024/12/31 = 365. -/
def get_holiday_list : List Nat :=
  [0, 42, 56, 98, 105, 106, 121, 126, 142, 154, 203, 210, 224, 287, 296, 339, 344, 365]

/-- Source lines 100-112: count the dates of the inclusive range that are
neither in the holiday list nor weekend days; substitute 1 when the count
is zero. -/
def get_work_day (start_date end_date : Nat) (holiday_list : List Nat) : Nat :=
  let work_day :=
    (dateRange start_date end_date).foldl
      (fun work_day date =>
        if date ∈ holiday_list then work_day
        else if isWeekend date then work_day
        else work_day + 1)
      0
  if work_day = 0 then 1 else work_day

/-- Spec 4.4 wording: the number of dates in the inclusive range that are
neither weekend nor holiday (before the zero-substitution fallback). -/
def workingDayCountSpec (s e : Nat) (holiday_list : List Nat) : Nat :=
  (dateRange s e).countP (fun d => !isWeekend d && !decide (d ∈ holiday_list))

/-- A task row after preprocess_tasks: the columns of tasks.csv consumed by
the core (ref renamed to task_id, user_story cast to userstory_id). -/
structure TaskIn where
  task_id : Nat
  userstory_id : Nat
  assigned_to : String
  start_date : Nat
  end_date : Nat
  actual_time : ℚ
deriving DecidableEq

/-- A user-story row after preprocess_userstories; only the join key is
consumed by the core. -/
structure Userstory where
  userstory_id : Nat
deriving DecidableEq

/-- An epic row before preprocess_epics: ref, subject and the free-text
related_user_stories field. -/
structure EpicIn where
  ref : Nat
  subject : String
  related_user_stories : String
deriving DecidableEq

/-- An exploded epic row after preprocess_epics: one row per user story
referenced by the epic. -/
structure EpicRow where
  epic_id : Nat
  userstory_id : Nat
  epic_name : String
deriving DecidableEq

/-- A merged row: the columns of merge_data's output that get_task_daily_df
reads. The assigned_to column of tasks is suffixed _task by the first merge
(both tasks and userstories carry an assigned_to column); epic_name is null
(none) when no exploded epic row matches the task's userstory_id. The
userstory columns brought in by the first merge are never read downstream
and are omitted. -/
structure MergedRow where
  task_id : Nat
  assigned_to_task : String
  epic_name : Option String
  start_date : Nat
  end_date : Nat
  actual_time : ℚ
deriving DecidableEq

/-- One element of task_daily_list (source lines 138-146). -/
structure AllocRecord where
  date : Nat
  assignee : String
  epic_name : Option String
  task_id : Nat
  hour : ℚ
deriving DecidableEq

/-- State of a scan of the free-text cross-reference field for the regex
pattern of one hash sign followed by one or more digits. -/
inductive ScanState where
  | idle : ScanState
  | afterHash : ScanState
  | inNum : Nat → ScanState
deriving DecidableEq

/-- Left-to-right, non-overlapping matcher for the Python regex
findall of the pattern hash-followed-by-digits, returning the integer
values of the captured digit groups (astype int). -/
def scanRefs : List Char → ScanState → List Nat
  | [], ScanState.inNum n => [n]
  | [], _ => []
  | c :: cs, ScanState.idle =>
    if c = '#' then scanRefs cs ScanState.afterHash else scanRefs cs ScanState.idle
  | c :: cs, ScanState.afterHash =>
    if c.isDigit then scanRefs cs (ScanState.inNum (c.toNat - 48))
    else if c = '#' then scanRefs cs ScanState.afterHash
    else scanRefs cs ScanState.idle
  | c :: cs, ScanState.inNum n =>
    if c.isDigit then scanRefs cs (ScanState.inNum (n * 10 + (c.toNat - 48)))
    else if c = '#' then n :: scanRefs cs ScanState.afterHash
    else n :: scanRefs cs ScanState.idle

/-- The list of user story ids referenced by a cross-reference field:
re.findall of hash-digits over the field, cast to int (source line 28). -/
def findRefs (s : String) : List Nat :=
  scanRefs s.toList ScanState.idle

/-- Source lines 25-35: extract the referenced user story ids from
related_user_stories, explode one row per id, keep subject as epic_name.
pandas explode turns an empty match list into a NaN row, and the following
astype(int) then raises; this is the error branch. -/
def preprocess_epics (epics : List EpicIn) : Except String (List EpicRow) :=
  if epics.any (fun e => (findRefs e.related_user_stories).isEmpty) then
    Except.error ("ValueError: cannot convert non-finite values to integer")
  else
    Except.ok (epics.flatMap (fun e =>
      (findRefs e.related_user_stories).map (fun u =>
        { epic_id := e.ref, userstory_id := u, epic_name := e.subject })))

/-- The pandas MergeError message raised by validate equal m:1 when the
right-side join key is duplicated. -/
def mergeErrorMsg : String :=
  "MergeError: Merge keys are not unique in right dataset; not a many-to-one merge"

/-- The merged row produced for one task by the two left joins: under the
m:1 validation at most one exploded epic row matches the task's
userstory_id, so a lookup with find? is exact. -/
def mergeRow (epics : List EpicRow) (t : TaskIn) : MergedRow :=
  { task_id := t.task_id
    assigned_to_task := t.assigned_to
    epic_name := (epics.find? (fun e => e.userstory_id == t.userstory_id)).map
      (fun e => e.epic_name)
    start_date := t.start_date
    end_date := t.end_date
    actual_time := t.actual_time }

/-- Source lines 38-62: tasks left-joined with userstories and then with the
exploded epics, both joins validated m:1 (duplicate right-side keys raise a
MergeError before any row is produced). -/
def merge_data (tasks : List TaskIn) (userstories : List Userstory)
    (epics : List EpicRow) : Except String (List MergedRow) :=
  if (userstories.map (fun u => u.userstory_id)).Nodup then
    if (epics.map (fun e => e.userstory_id)).Nodup then
      Except.ok (tasks.map (mergeRow epics))
    else Except.error mergeErrorMsg
  else Except.error mergeErrorMsg

/-- Source line 122: the task's start date after validation. -/
def normalizedStart (holiday_list : List Nat) (row : MergedRow) : Nat :=
  validate_start_date_end_date row.start_date holiday_list

/-- Source lines 123-125: the task's end date after validation, clamped up
to the normalized start date when it precedes it. -/
def normalizedEnd (holiday_list : List Nat) (row : MergedRow) : Nat :=
  if validate_start_date_end_date row.end_date holiday_list <
      normalizedStart holiday_list row then
    normalizedStart holiday_list row
  else validate_start_date_end_date row.end_date holiday_list

/-- Source lines 126-146: the allocation records one row of merge_data_df
appends to task_daily_list: one record per non-weekend non-holiday date of
the normalized range, each carrying actual_time / get_work_day hours. -/
def taskDailyRows (holiday_list : List Nat) (row : MergedRow) : List AllocRecord :=
  let s := normalizedStart holiday_list row
  let e := normalizedEnd holiday_list row
  let total_date := get_work_day s e holiday_list
  let hour := row.actual_time / (total_date : ℚ)
  ((dateRange s e).filter (fun d => !isWeekend d && !decide (d ∈ holiday_list))).map
    (fun d =>
      { date := d
        assignee := row.assigned_to_task
        epic_name := row.epic_name
        task_id := row.task_id
        hour := hour })

/-- Source lines 115-148: iterate the merged rows and collect the per-day
allocation records, with the hard-coded holiday list. -/
def get_task_daily_df (rows : List MergedRow) : List AllocRecord :=
  rows.flatMap (taskDailyRows get_holiday_list)

/-- A pivoted calendar series: the row index (dates), the columns (group
keys) and the numeric cell at each date and column. -/
structure CalendarSeries where
  dates : List Nat
  cols : List String
  cell : Nat → String → ℚ

/-- The message of the KeyError raised by groupby when the input frame was
built from an empty record list and therefore has no columns at all. -/
def keyErrorMsg : String :=
  "KeyError: date"

/-- The message of the ValueError raised by pd.date_range when index.min and
index.max of an empty pivoted frame are NaT. -/
def natErrorMsg : String :=
  "ValueError: Neither start nor end can be NaT"

/-- The rows kept by groupby on date and a group key: pandas groupby drops
rows whose group key is null, so a record enters as (date, key, hour) only
when its key is present. -/
def keptOf (keyOf : AllocRecord → Option String) (recs : List AllocRecord) :
    List (Nat × String × ℚ) :=
  recs.filterMap (fun r => (keyOf r).map (fun k => (r.date, k, r.hour)))

/-- The pivoted calendar series built from a non-empty kept set: the row
index is the full date range from the minimum to the maximum kept date
(index.min and index.max followed by reindex over pd.date_range with
fill_value 0), the columns are the distinct keys (pandas sorts them; the
order is irrelevant to every property proved below, so first-occurrence
order is kept), and a cell holds the grouped sum of hours for its (date,
key) pair, or 0 when the pair is absent (pivot leaves NaN, fillna and
reindex turn it into 0). -/
def buildSeries (t : Nat × String × ℚ) (ts : List (Nat × String × ℚ)) : CalendarSeries :=
  { dates := dateRange ((ts.map (fun u => u.1)).foldl Nat.min t.1)
      ((ts.map (fun u => u.1)).foldl Nat.max t.1)
    cols := ((t :: ts).map (fun u => u.2.1)).dedup
    cell := fun d k =>
      let grp := (t :: ts).filter (fun u => u.1 == d && u.2.1 == k)
      if grp.isEmpty then 0 else grp.foldl (fun a u => a + u.2.2) 0 }

/-- Source lines 151-173 and 176-190 share this shape: groupby (date, key)
summing hour, pivot, fillna 0, reindex over the full date range. On the
empty record list pd.DataFrame has no columns and groupby raises a
KeyError; when every key is null the grouped frame is empty, index.min is
NaT, and pd.date_range raises a ValueError. -/
def aggregate (keyOf : AllocRecord → Option String) (recs : List AllocRecord) :
    Except String CalendarSeries :=
  if recs.isEmpty then
    Except.error keyErrorMsg
  else
    match keptOf keyOf recs with
    | [] => Except.error natErrorMsg
    | t :: ts => Except.ok (buildSeries t ts)

/-- Source lines 151-173: per-assignee daily series; the assignee column is
the group key. -/
def get_assignee_hour_per_day_df (task_daily_df : List AllocRecord) :
    Except String CalendarSeries :=
  aggregate (fun r => some r.assignee) task_daily_df

/-- Source lines 176-190: per-epic daily series; the nullable epic_name
column is the group key. -/
def get_project_hour_per_day_df (task_daily_df : List AllocRecord) :
    Except String CalendarSeries :=
  aggregate (fun r => r.epic_name) task_daily_df

/-- A calendar-complete row index over a list kd of observed dates: no
duplicates, consecutive day numbers, containing every observed date, never
reaching outside the observed range, and gap-free (convex). -/
def calendarComplete (dates kd : List Nat) : Prop :=
  dates.Nodup ∧
  dates.Chain' (fun a b => b = a + 1) ∧
  (∀ x ∈ kd, x ∈ dates) ∧
  (∀ x ∈ dates, (∃ a ∈ kd, a ≤ x) ∧ (∃ b ∈ kd, x ≤ b)) ∧
  (∀ x y z : Nat, x ∈ dates → z ∈ dates → x ≤ y → y ≤ z → y ∈ dates)

/-! ### Concrete inputs used to instantiate the theorems below -/

/-- A one-day task on Tuesday 2024-01-02 (day 1) with 8 recorded hours. -/
def c1row : MergedRow :=
  { task_id := 1, assigned_to_task := "alice", epic_name := some "E",
    start_date := 1, end_date := 1, actual_time := 8 }

/-- Two same-day records, one without an epic (5 hours) and one with epic E
(3 hours). -/
def c3recs : List AllocRecord :=
  [{ date := 0, assignee := "alice", epic_name := none, task_id := 1, hour := 5 },
   { date := 0, assignee := "alice", epic_name := some "E", task_id := 2, hour := 3 }]

/-- Two records whose dates span day 0 to day 5, where the record on day 0
carries no epic. -/
def c5recs : List AllocRecord :=
  [{ date := 0, assignee := "a", epic_name := none, task_id := 1, hour := 5 },
   { date := 5, assignee := "a", epic_name := some "E", task_id := 2, hour := 3 }]

/-- Two records of distinct assignees on day 2 and day 4. -/
def c5wrecs : List AllocRecord :=
  [{ date := 2, assignee := "a", epic_name := some "E", task_id := 1, hour := 1 },
   { date := 4, assignee := "b", epic_name := some "F", task_id := 2, hour := 2 }]

/-- A single two-hour record on day 0. -/
def c6recs : List AllocRecord :=
  [{ date := 0, assignee := "a", epic_name := some "E", task_id := 1, hour := 2 }]

/-- A task whose raw end date (Monday, day 0) precedes its raw start date
(Monday, day 7). -/
def c7row : MergedRow :=
  { task_id := 1, assigned_to_task := "a", epic_name := none,
    start_date := 7, end_date := 0, actual_time := 1 }

/-- A task joining user story 5. -/
def c4task : TaskIn :=
  { task_id := 1, userstory_id := 5, assigned_to := "a",
    start_date := 0, end_date := 0, actual_time := 1 }

/-- A task joining user story 2, which no user story or epic row matches. -/
def c3task : TaskIn :=
  { task_id := 1, userstory_id := 2, assigned_to := "a",
    start_date := 0, end_date := 0, actual_time := 1 }

/-- An epic whose cross-reference field names user stories 12 and 45. -/
def c9epic : EpicIn :=
  { ref := 7, subject := "Epic A", related_user_stories := "#12, #45" }

/-! ### Basic lemmas about the date range -/

theorem mem_dateRange {s e x : Nat} : x ∈ dateRange s e ↔ s ≤ x ∧ x ≤ e := by
  unfold dateRange
  rw [List.mem_range'_1]
  omega

theorem nodup_dateRange (s e : Nat) : (dateRange s e).Nodup :=
  List.nodup_range' _ _

theorem length_dateRange (s e : Nat) : (dateRange s e).length = e + 1 - s := by
  simp [dateRange]

theorem chain'_range' (n s : Nat) :
    (List.range' s n).Chain' (fun a b => b = a + 1) := by
  induction n generalizing s with
  | zero => simp
  | succ m ih =>
    rw [List.range'_succ]
    cases m with
    | zero => simp
    | succ k =>
      rw [List.range'_succ]
      exact List.Chain'.cons rfl (by rw [← List.range'_succ]; exact ih (s + 1))

theorem chain'_dateRange (s e : Nat) :
    (dateRange s e).Chain' (fun a b => b = a + 1) :=
  chain'_range' (e + 1 - s) s

/-! ### Folded minimum and maximum, modelling index.min and index.max -/

theorem foldl_min_le_init (l : List Nat) (a : Nat) : l.foldl Nat.min a ≤ a := by
  induction l generalizing a with
  | nil => simp
  | cons x t ih => exact le_trans (ih (Nat.min a x)) (Nat.min_le_left a x)

theorem foldl_min_le_mem {l : List Nat} {x : Nat} (h : x ∈ l) (a : Nat) :
    l.foldl Nat.min a ≤ x := by
  induction l generalizing a with
  | nil => cases h
  | cons y t ih =>
    rcases List.mem_cons.mp h with h1 | h1
    · subst h1
      exact le_trans (foldl_min_le_init t (Nat.min a x)) (Nat.min_le_right a x)
    · exact ih h1 (Nat.min a y)

theorem foldl_min_mem (l : List Nat) (a : Nat) :
    l.foldl Nat.min a = a ∨ l.foldl Nat.min a ∈ l := by
  induction l generalizing a with
  | nil => simp
  | cons y t ih =>
    rcases ih (Nat.min a y) with h1 | h1
    · by_cases h2 : a ≤ y
      · left
        rw [List.foldl_cons, h1]
        exact min_eq_left h2
      · right
        have h3 : Nat.min a y = y := min_eq_right (by omega)
        rw [List.foldl_cons, h1, h3]
        exact List.mem_cons_self y t
    · right; exact List.mem_cons_of_mem y h1

theorem foldl_max_init_le (l : List Nat) (a : Nat) : a ≤ l.foldl Nat.max a := by
  induction l generalizing a with
  | nil => simp
  | cons x t ih => exact le_trans (Nat.le_max_left a x) (ih (Nat.max a x))

theorem foldl_max_mem_le {l : List Nat} {x : Nat} (h : x ∈ l) (a : Nat) :
    x ≤ l.foldl Nat.max a := by
  induction l generalizing a with
  | nil => cases h
  | cons y t ih =>
    rcases List.mem_cons.mp h with h1 | h1
    · subst h1
      exact le_trans (Nat.le_max_right a x) (foldl_max_init_le t (Nat.max a x))
    · exact ih h1 (Nat.max a y)

theorem foldl_max_mem (l : List Nat) (a : Nat) :
    l.foldl Nat.max a = a ∨ l.foldl Nat.max a ∈ l := by
  induction l generalizing a with
  | nil => simp
  | cons y t ih =>
    rcases ih (Nat.max a y) with h1 | h1
    · by_cases h2 : a ≤ y
      · right
        have h3 : Nat.max a y = y := max_eq_right h2
        rw [List.foldl_cons, h1, h3]
        exact List.mem_cons_self y t
      · left
        rw [List.foldl_cons, h1]
        exact max_eq_left (by omega)
    · right; exact List.mem_cons_of_mem y h1

/-! ### The holiday-skip loop -/

theorem skipHolidays_eq (hl : List Nat) (d : Nat) :
    skipHolidays hl d = if d ∈ hl then skipHolidays hl (d + 1) else d := by
  rw [skipHolidays]
  exact dif_eq_if _ _ _

theorem skipHolidays_not_mem (hl : List Nat) (d : Nat) : skipHolidays hl d ∉ hl := by
  induction d using skipHolidays.induct hl with
  | case1 d h ih => rw [skipHolidays, dif_pos h]; exact ih
  | case2 d h => rw [skipHolidays, dif_neg h]; exact h

theorem le_skipHolidays (hl : List Nat) (d : Nat) : d ≤ skipHolidays hl d := by
  induction d using skipHolidays.induct hl with
  | case1 d h ih => rw [skipHolidays, dif_pos h]; omega
  | case2 d h => rw [skipHolidays, dif_neg h]

theorem skipHolidays_min (hl : List Nat) (d : Nat) :
    ∀ y, d ≤ y → y < skipHolidays hl d → y ∈ hl := by
  induction d using skipHolidays.induct hl with
  | case1 d h ih =>
    intro y h1 h2
    rw [skipHolidays, dif_pos h] at h2
    rcases eq_or_lt_of_le h1 with rfl | h3
    · exact h
    · exact ih y h3 h2
  | case2 d h =>
    intro y h1 h2
    rw [skipHolidays, dif_neg h] at h2
    omega

/-! ### Working-day counting -/

theorem workday_foldl (hl : List Nat) (l : List Nat) (acc : Nat) :
    l.foldl
      (fun work_day date =>
        if date ∈ hl then work_day
        else if isWeekend date then work_day
        else work_day + 1) acc
      = acc + l.countP (fun d => !isWeekend d && !decide (d ∈ hl)) := by
  induction l generalizing acc with
  | nil => simp
  | cons x t ih =>
    by_cases hx : x ∈ hl
    · simp [List.countP_cons, hx, ih]
    · by_cases hw : isWeekend x
      · simp [List.countP_cons, hx, hw, ih]
      · simp [List.countP_cons, hx, hw, ih]
        omega

theorem get_work_day_eq (s e : Nat) (hl : List Nat) :
    get_work_day s e hl =
      if workingDayCountSpec s e hl = 0 then 1 else workingDayCountSpec s e hl := by
  unfold get_work_day workingDayCountSpec
  rw [workday_foldl]
  simp

theorem get_work_day_pos (s e : Nat) (hl : List Nat) : 0 < get_work_day s e hl := by
  rw [get_work_day_eq]
  split <;> omega

/-! ### The daily allocation expansion -/

theorem sum_map_const {α : Type} (l : List α) (c : ℚ) :
    (l.map (fun _ => c)).sum = (l.length : ℚ) * c := by
  induction l with
  | nil => simp
  | cons x t ih =>
    rw [List.map_cons, List.sum_cons, ih, List.length_cons]
    push_cast
    ring

theorem taskDailyRows_eq (hl : List Nat) (row : MergedRow) :
    taskDailyRows hl row =
      ((dateRange (normalizedStart hl row) (normalizedEnd hl row)).filter
          (fun d => !isWeekend d && !decide (d ∈ hl))).map
        (fun d =>
          { date := d
            assignee := row.assigned_to_task
            epic_name := row.epic_name
            task_id := row.task_id
            hour := row.actual_time /
              ((get_work_day (normalizedStart hl row) (normalizedEnd hl row) hl : ℚ)) }) :=
  rfl

theorem taskDailyRows_length (hl : List Nat) (row : MergedRow) :
    (taskDailyRows hl row).length =
      workingDayCountSpec (normalizedStart hl row) (normalizedEnd hl row) hl := by
  rw [taskDailyRows_eq, List.length_map, ← List.countP_eq_length_filter]
  rfl

theorem taskDailyRows_sum (hl : List Nat) (row : MergedRow) :
    ((taskDailyRows hl row).map AllocRecord.hour).sum =
      (workingDayCountSpec (normalizedStart hl row) (normalizedEnd hl row) hl : ℚ) *
        (row.actual_time /
          (get_work_day (normalizedStart hl row) (normalizedEnd hl row) hl : ℚ)) := by
  rw [taskDailyRows_eq, List.map_map]
  rw [show (AllocRecord.hour ∘ fun d =>
      (({ date := d
          assignee := row.assigned_to_task
          epic_name := row.epic_name
          task_id := row.task_id
          hour := row.actual_time /
            ((get_work_day (normalizedStart hl row) (normalizedEnd hl row) hl : ℚ)) } :
        AllocRecord))) =
      (fun _ => row.actual_time /
        ((get_work_day (normalizedStart hl row) (normalizedEnd hl row) hl : ℚ))) from rfl]
  rw [sum_map_const, ← List.countP_eq_length_filter]
  rfl

theorem taskDailyRows_eq_nil (hl : List Nat) (row : MergedRow)
    (h : workingDayCountSpec (normalizedStart hl row) (normalizedEnd hl row) hl = 0) :
    taskDailyRows hl row = [] := by
  have hlen := taskDailyRows_length hl row
  rw [h] at hlen
  exact List.eq_nil_of_length_eq_zero hlen

/-! ### The calendar aggregator -/

theorem aggregate_ok (keyOf : AllocRecord → Option String) (recs : List AllocRecord)
    (s : CalendarSeries) (h : aggregate keyOf recs = Except.ok s) :
    ∃ t ts, keptOf keyOf recs = t :: ts ∧ s = buildSeries t ts := by
  unfold aggregate at h
  by_cases he : recs.isEmpty
  · rw [if_pos he] at h
    cases h
  · rw [if_neg he] at h
    cases hk : keptOf keyOf recs with
    | nil => rw [hk] at h; cases h
    | cons t ts =>
      rw [hk] at h
      cases h
      exact ⟨t, ts, rfl, rfl⟩

theorem aggregate_ok_ne_nil (keyOf : AllocRecord → Option String)
    (recs : List AllocRecord) (s : CalendarSeries)
    (h : aggregate keyOf recs = Except.ok s) : recs ≠ [] := by
  intro hnil
  subst hnil
  cases h

theorem mem_keptOf {keyOf : AllocRecord → Option String} {recs : List AllocRecord}
    {u : Nat × String × ℚ} :
    u ∈ keptOf keyOf recs ↔
      ∃ r ∈ recs, keyOf r = some u.2.1 ∧ u.1 = r.date ∧ u.2.2 = r.hour := by
  unfold keptOf
  rw [List.mem_filterMap]
  constructor
  · rintro ⟨r, hr, hu⟩
    rcases Option.map_eq_some'.mp hu with ⟨k, hk, hku⟩
    refine ⟨r, hr, ?_, ?_, ?_⟩ <;> rw [← hku] <;> simp [hk]
  · rintro ⟨r, hr, hk, h1, h2⟩
    refine ⟨r, hr, ?_⟩
    obtain ⟨u1, u2, u3⟩ := u
    simp only at hk h1 h2
    subst h1
    subst h2
    rw [hk]
    rfl

theorem keptOf_assignee (recs : List AllocRecord) :
    keptOf (fun r => some r.assignee) recs =
      recs.map (fun r => (r.date, r.assignee, r.hour)) := by
  induction recs with
  | nil => rfl
  | cons r t ih => simp [keptOf] at ih ⊢; exact ih

theorem buildSeries_dates (t : Nat × String × ℚ) (ts : List (Nat × String × ℚ)) :
    (buildSeries t ts).dates =
      dateRange ((ts.map (fun u => u.1)).foldl Nat.min t.1)
        ((ts.map (fun u => u.1)).foldl Nat.max t.1) :=
  rfl

theorem buildSeries_calendarComplete (t : Nat × String × ℚ)
    (ts : List (Nat × String × ℚ)) :
    calendarComplete (buildSeries t ts).dates ((t :: ts).map (fun u => u.1)) := by
  rw [buildSeries_dates]
  set m := (ts.map (fun u => u.1)).foldl Nat.min t.1 with hm
  set M := (ts.map (fun u => u.1)).foldl Nat.max t.1 with hM
  have hmem : ∀ x ∈ (t :: ts).map (fun u => u.1), m ≤ x ∧ x ≤ M := by
    intro x hx
    rcases List.mem_cons.mp hx with h1 | h1
    · subst h1
      exact ⟨foldl_min_le_init _ _, foldl_max_init_le _ _⟩
    · exact ⟨foldl_min_le_mem h1 _, foldl_max_mem_le h1 _⟩
  have hmkd : m ∈ (t :: ts).map (fun u => u.1) := by
    rcases foldl_min_mem (ts.map (fun u => u.1)) t.1 with h1 | h1
    · rw [hm, h1]
      exact List.mem_cons_self _ _
    · exact List.mem_cons_of_mem _ h1
  have hMkd : M ∈ (t :: ts).map (fun u => u.1) := by
    rcases foldl_max_mem (ts.map (fun u => u.1)) t.1 with h1 | h1
    · rw [hM, h1]
      exact List.mem_cons_self _ _
    · exact List.mem_cons_of_mem _ h1
  refine ⟨nodup_dateRange m M, chain'_dateRange m M, ?_, ?_, ?_⟩
  · intro x hx
    rcases hmem x hx with ⟨h1, h2⟩
    exact mem_dateRange.mpr ⟨h1, h2⟩
  · intro x hx
    rcases mem_dateRange.mp hx with ⟨h1, h2⟩
    exact ⟨⟨m, hmkd, h1⟩, ⟨M, hMkd, h2⟩⟩
  · intro x y z hx hz hxy hyz
    rcases mem_dateRange.mp hx with ⟨h1, _⟩
    rcases mem_dateRange.mp hz with ⟨_, h2⟩
    exact mem_dateRange.mpr ⟨le_trans h1 hxy, le_trans hyz h2⟩

theorem buildSeries_cols (t : Nat × String × ℚ) (ts : List (Nat × String × ℚ)) :
    (buildSeries t ts).cols = ((t :: ts).map (fun u => u.2.1)).dedup :=
  rfl

theorem foldl_add_nonneg (l : List (Nat × String × ℚ)) (a : ℚ) (ha : 0 ≤ a)
    (h : ∀ u ∈ l, 0 ≤ u.2.2) : 0 ≤ l.foldl (fun a u => a + u.2.2) a := by
  induction l generalizing a with
  | nil => simpa using ha
  | cons x xs ih =>
    rw [List.foldl_cons]
    refine ih (a + x.2.2) ?_ (fun u hu => h u (List.mem_cons_of_mem x hu))
    have := h x (List.mem_cons_self x xs)
    linarith

theorem buildSeries_cell_nonneg (t : Nat × String × ℚ) (ts : List (Nat × String × ℚ))
    (h : ∀ u ∈ t :: ts, 0 ≤ u.2.2) (d : Nat) (k : String) :
    0 ≤ (buildSeries t ts).cell d k := by
  show 0 ≤ (if ((t :: ts).filter (fun u => u.1 == d && u.2.1 == k)).isEmpty then (0 : ℚ)
    else ((t :: ts).filter (fun u => u.1 == d && u.2.1 == k)).foldl
      (fun a u => a + u.2.2) 0)
  split
  · exact le_refl 0
  · exact foldl_add_nonneg _ 0 (le_refl 0)
      (fun u hu => h u (List.mem_of_mem_filter hu))

theorem buildSeries_cell_absent (t : Nat × String × ℚ) (ts : List (Nat × String × ℚ))
    (d : Nat) (k : String) (h : ∀ u ∈ t :: ts, ¬(u.1 = d ∧ u.2.1 = k)) :
    (buildSeries t ts).cell d k = 0 := by
  show (if ((t :: ts).filter (fun u => u.1 == d && u.2.1 == k)).isEmpty then (0 : ℚ)
    else ((t :: ts).filter (fun u => u.1 == d && u.2.1 == k)).foldl
      (fun a u => a + u.2.2) 0) = 0
  have hnil : (t :: ts).filter (fun u => u.1 == d && u.2.1 == k) = [] := by
    rw [List.filter_eq_nil_iff]
    intro u hu
    have := h u hu
    simp only [Bool.and_eq_true, beq_iff_eq]
    tauto
  rw [hnil]
  simp

/-! ### Claim theorems -/

/-- C8: get_work_day returns the number of dates of the inclusive range that
are neither Saturday or Sunday nor in the holiday list, except that it
returns 1 when that count is zero; it is therefore positive and the divisor
actual_time is divided by is never zero. -/
theorem c8_get_work_day (s e : Nat) (hl : List Nat) :
    get_work_day s e hl =
      (if workingDayCountSpec s e hl = 0 then 1 else workingDayCountSpec s e hl) ∧
    0 < get_work_day s e hl ∧
    ((get_work_day s e hl : ℚ) ≠ 0) := by
  refine ⟨get_work_day_eq s e hl, get_work_day_pos s e hl, ?_⟩
  have h := get_work_day_pos s e hl
  exact_mod_cast Nat.pos_iff_ne_zero.mp h

/-- Witness for c8_get_work_day on the one-day range of day 1 with no
holidays. -/
theorem c8_witness :
    get_work_day 1 1 [] = 1 ∧ 0 < get_work_day 1 1 [] := by
  have h := c8_get_work_day 1 1 []
  refine ⟨?_, h.2.1⟩
  rw [h.1]
  decide

/-- C7: the two dates are normalized independently; when the normalized end
date precedes the normalized start date it is clamped to the start date, and
otherwise kept, so the expansion range always holds at least one calendar
day. -/
theorem c7_clamp (hl : List Nat) (row : MergedRow) :
    (validate_start_date_end_date row.end_date hl < normalizedStart hl row →
      normalizedEnd hl row = normalizedStart hl row) ∧
    (¬(validate_start_date_end_date row.end_date hl < normalizedStart hl row) →
      normalizedEnd hl row = validate_start_date_end_date row.end_date hl) ∧
    normalizedStart hl row ≤ normalizedEnd hl row ∧
    1 ≤ (dateRange (normalizedStart hl row) (normalizedEnd hl row)).length := by
  unfold normalizedEnd
  refine ⟨fun h => if_pos h, fun h => if_neg h, ?_, ?_⟩
  · split <;> omega
  · rw [length_dateRange]
    split <;> omega

/-- Witness for c7_clamp: with no holidays, the task whose raw end date
(day 0) precedes its raw start date (day 7) gets its end clamped to the
start, giving a one-day range. -/
theorem c7_witness :
    normalizedEnd [] c7row = normalizedStart [] c7row ∧
    1 ≤ (dateRange (normalizedStart [] c7row) (normalizedEnd [] c7row)).length := by
  have h := c7_clamp [] c7row
  have hlt : validate_start_date_end_date c7row.end_date [] < normalizedStart [] c7row := by
    simp [c7row, normalizedStart, validate_start_date_end_date, weekendAdvance,
      skipHolidays_eq]
  exact ⟨h.1 hlt, h.2.2.2⟩

/-- C2: the normalizer first advances a Saturday or Sunday date once, by
7 - weekday days, onto the following Monday; it then advances one day at a
time exactly while the date is a holiday, stopping at the first non-holiday;
the weekend check is never re-applied afterwards, and the returned date can
be a weekend day (from the Friday holiday input 4 with holiday list [4] it
returns the Saturday 5). -/
theorem c2_normalizer_order (d : Nat) (hl : List Nat) :
    validate_start_date_end_date d hl = skipHolidays hl (weekendAdvance d) ∧
    ((d % 7 = 5 ∨ d % 7 = 6) →
      weekendAdvance d = d + (7 - d % 7) ∧ weekendAdvance d % 7 = 0 ∧
      d < weekendAdvance d ∧ weekendAdvance d ≤ d + 2) ∧
    (¬(d % 7 = 5 ∨ d % 7 = 6) → weekendAdvance d = d) ∧
    weekendAdvance d ≤ validate_start_date_end_date d hl ∧
    validate_start_date_end_date d hl ∉ hl ∧
    (∀ y, weekendAdvance d ≤ y → y < validate_start_date_end_date d hl → y ∈ hl) ∧
    isWeekend (validate_start_date_end_date 4 [4]) = true := by
  refine ⟨rfl, ?_, ?_, ?_, ?_, ?_, ?_⟩
  · intro h
    have hw : (d % 7 == 5 || d % 7 == 6) = true := by
      rcases h with h | h <;> simp [h]
    unfold weekendAdvance
    rw [if_pos hw]
    refine ⟨rfl, ?_, ?_, ?_⟩ <;> omega
  · intro h
    have hw : (d % 7 == 5 || d % 7 == 6) = false := by
      simp only [Bool.or_eq_false_iff, beq_eq_false_iff_ne]
      omega
    unfold weekendAdvance
    rw [if_neg (by simp [hw])]
  · exact le_skipHolidays hl (weekendAdvance d)
  · exact skipHolidays_not_mem hl (weekendAdvance d)
  · exact skipHolidays_min hl (weekendAdvance d)
  · simp [validate_start_date_end_date, weekendAdvance, skipHolidays_eq, isWeekend]

/-- Witness for c2_normalizer_order: the Saturday 5 with no holidays is
advanced to the Monday 7, and the returned date is not a holiday. -/
theorem c2_witness :
    weekendAdvance 5 = 7 ∧
    validate_start_date_end_date 5 [] ∉ ([] : List Nat) ∧
    isWeekend (validate_start_date_end_date 4 [4]) = true := by
  have h := c2_normalizer_order 5 ([] : List Nat)
  refine ⟨?_, h.2.2.2.2.1, h.2.2.2.2.2.2⟩
  have h2 := (h.2.1 (by norm_num)).1
  rw [h2]

/-- C1: for a merged task row with non-negative actual_time, the hour fields
of the allocation records get_task_daily_df emits for it sum to exactly its
actual_time, unless the working-day count of its normalized inclusive range
is zero, in which case no allocation records at all are emitted for it. -/
theorem c1_task_hour_sum (row : MergedRow) (_hpos : 0 ≤ row.actual_time) :
    (workingDayCountSpec (normalizedStart get_holiday_list row)
        (normalizedEnd get_holiday_list row) get_holiday_list = 0 →
      get_task_daily_df [row] = []) ∧
    (workingDayCountSpec (normalizedStart get_holiday_list row)
        (normalizedEnd get_holiday_list row) get_holiday_list ≠ 0 →
      ((get_task_daily_df [row]).map AllocRecord.hour).sum = row.actual_time) := by
  have hdf : get_task_daily_df [row] = taskDailyRows get_holiday_list row := by
    simp [get_task_daily_df]
  constructor
  · intro h0
    rw [hdf]
    exact taskDailyRows_eq_nil _ _ h0
  · intro hne
    rw [hdf, taskDailyRows_sum, get_work_day_eq, if_neg hne, mul_comm]
    exact div_mul_cancel₀ _ (by exact_mod_cast hne)

/-- Witness for c1_task_hour_sum: the one-day task on day 1 with 8 hours
yields allocation records whose hours sum to 8. -/
theorem c1_witness :
    ((get_task_daily_df [c1row]).map AllocRecord.hour).sum = (8 : ℚ) := by
  have hs : normalizedStart get_holiday_list c1row = 1 := by
    simp [c1row, normalizedStart, validate_start_date_end_date, weekendAdvance,
      skipHolidays_eq, get_holiday_list]
  have he : normalizedEnd get_holiday_list c1row = 1 := by
    simp [c1row, normalizedEnd, normalizedStart, validate_start_date_end_date,
      weekendAdvance, skipHolidays_eq, get_holiday_list]
  have h := (c1_task_hour_sum c1row (by norm_num [c1row])).2
  rw [hs, he] at h
  have h8 : c1row.actual_time = (8 : ℚ) := rfl
  rw [← h8]
  exact h (by decide)

/-- C10: if the merged rows yield zero allocation records, the daily table
is empty (built from an empty list, so the frame has no columns) and both
aggregators fail with an error instead of returning an empty series; a
calendar series is only produced from a non-empty allocation list. -/
theorem c10_empty_failure :
    (∀ rows : List MergedRow,
      (∀ row ∈ rows,
        workingDayCountSpec (normalizedStart get_holiday_list row)
          (normalizedEnd get_holiday_list row) get_holiday_list = 0) →
      get_task_daily_df rows = [] ∧
      get_assignee_hour_per_day_df (get_task_daily_df rows) = Except.error keyErrorMsg ∧
      get_project_hour_per_day_df (get_task_daily_df rows) = Except.error keyErrorMsg) ∧
    (∀ (recs : List AllocRecord) (s : CalendarSeries),
      get_assignee_hour_per_day_df recs = Except.ok s → recs ≠ []) ∧
    (∀ (recs : List AllocRecord) (s : CalendarSeries),
      get_project_hour_per_day_df recs = Except.ok s → recs ≠ []) := by
  refine ⟨?_, ?_, ?_⟩
  · intro rows h
    have hnil : get_task_daily_df rows = [] := by
      unfold get_task_daily_df
      induction rows with
      | nil => rfl
      | cons row t ih =>
        rw [List.flatMap_cons, taskDailyRows_eq_nil _ _ (h row (List.mem_cons_self row t)),
          List.nil_append]
        exact ih (fun r hr => h r (List.mem_cons_of_mem row hr))
    exact ⟨hnil, by rw [hnil]; rfl, by rw [hnil]; rfl⟩
  · exact fun recs s h => aggregate_ok_ne_nil _ _ _ h
  · exact fun recs s h => aggregate_ok_ne_nil _ _ _ h

/-- Witness for c10_empty_failure at the empty merged table. -/
theorem c10_witness :
    get_task_daily_df [] = [] ∧
    get_assignee_hour_per_day_df (get_task_daily_df []) = Except.error keyErrorMsg ∧
    get_project_hour_per_day_df (get_task_daily_df []) = Except.error keyErrorMsg := by
  exact c10_empty_failure.1 [] (by intro row hrow; cases hrow)

/-- C4: merge_data fails with the cardinality MergeError when the user-story
table duplicates a userstory_id or the exploded epic table maps one
userstory_id to more than one row; when neither does, it returns exactly one
merged row per input task. -/
theorem c4_merge_cardinality (tasks : List TaskIn) (userstories : List Userstory)
    (epics : List EpicRow) :
    (¬(userstories.map (fun u => u.userstory_id)).Nodup →
      merge_data tasks userstories epics = Except.error mergeErrorMsg) ∧
    (¬(epics.map (fun e => e.userstory_id)).Nodup →
      merge_data tasks userstories epics = Except.error mergeErrorMsg) ∧
    ((userstories.map (fun u => u.userstory_id)).Nodup →
      (epics.map (fun e => e.userstory_id)).Nodup →
      merge_data tasks userstories epics = Except.ok (tasks.map (mergeRow epics)) ∧
      (tasks.map (mergeRow epics)).length = tasks.length) := by
  unfold merge_data
  refine ⟨fun h => ?_, fun h => ?_, fun h1 h2 => ?_⟩
  · rw [if_neg h]
  · by_cases h1 : (userstories.map (fun u => u.userstory_id)).Nodup
    · rw [if_pos h1, if_neg h]
    · rw [if_neg h1]
  · rw [if_pos h1, if_pos h2]
    exact ⟨rfl, List.length_map _ _⟩

/-- Witness for c4_merge_cardinality: a duplicated user story id 1 makes the
merge fail, and with unique keys one task yields one merged row. -/
theorem c4_witness :
    merge_data [] [⟨1⟩, ⟨1⟩] [] = Except.error mergeErrorMsg ∧
    merge_data [c4task] [⟨5⟩] [] = Except.ok [mergeRow [] c4task] ∧
    ([c4task].map (mergeRow [])).length = 1 := by
  have h1 := (c4_merge_cardinality [] [⟨1⟩, ⟨1⟩] []).1 (by decide)
  have h2 := (c4_merge_cardinality [c4task] [⟨5⟩] []).2.2 (by decide) (by decide)
  exact ⟨h1, h2.1, h2.2⟩

/-- C9: an epic whose cross-reference field reads hash 12 comma hash 45
explodes into exactly the two rows for user stories 12 and 45, both with
the epic's name; in general, whenever every epic has at least one match,
one row is produced per matched occurrence of the hash-integer pattern. -/
theorem c9_explode :
    (∀ (eid : Nat) (name : String),
      preprocess_epics
          [{ ref := eid, subject := name, related_user_stories := "#12, #45" }] =
        Except.ok [{ epic_id := eid, userstory_id := 12, epic_name := name },
          { epic_id := eid, userstory_id := 45, epic_name := name }]) ∧
    (∀ epics : List EpicIn,
      (∀ e ∈ epics, findRefs e.related_user_stories ≠ []) →
      preprocess_epics epics =
        Except.ok (epics.flatMap (fun e =>
          (findRefs e.related_user_stories).map (fun u =>
            { epic_id := e.ref, userstory_id := u, epic_name := e.subject })))) := by
  have hgen : ∀ epics : List EpicIn,
      (∀ e ∈ epics, findRefs e.related_user_stories ≠ []) →
      preprocess_epics epics =
        Except.ok (epics.flatMap (fun e =>
          (findRefs e.related_user_stories).map (fun u =>
            { epic_id := e.ref, userstory_id := u, epic_name := e.subject }))) := by
    intro epics h
    unfold preprocess_epics
    rw [if_neg ?hc]
    case hc =>
      simp only [List.any_eq_true]
      rintro ⟨e, he, hc⟩
      exact h e he (List.isEmpty_iff.mp hc)
  refine ⟨?_, hgen⟩
  intro eid name
  rw [hgen [{ ref := eid, subject := name, related_user_stories := "#12, #45" }]
    (by
      intro e he
      rw [List.mem_singleton] at he
      subst he
      show findRefs "#12, #45" ≠ []
      decide)]
  simp [show findRefs "#12, #45" = [12, 45] from rfl]

/-- Witness for c9_explode at the concrete epic record. -/
theorem c9_witness :
    preprocess_epics [c9epic] =
      Except.ok [{ epic_id := 7, userstory_id := 12, epic_name := "Epic A" },
        { epic_id := 7, userstory_id := 45, epic_name := "Epic A" }] := by
  rw [c9_explode.2 [c9epic]
    (by intro e he; rw [List.mem_singleton] at he; subst he; decide)]
  rfl

/-- C6: with non-negative input hours, every cell of either produced series
is non-negative, and a (date, group-key) pair with no matching allocation
record in the input yields exactly the value 0, never a missing value. -/
theorem c6_cells (recs : List AllocRecord) (s : CalendarSeries)
    (hpos : ∀ r ∈ recs, 0 ≤ r.hour) :
    (get_assignee_hour_per_day_df recs = Except.ok s →
      ∀ d k, 0 ≤ s.cell d k ∧
        ((∀ r ∈ recs, ¬(r.date = d ∧ r.assignee = k)) → s.cell d k = 0)) ∧
    (get_project_hour_per_day_df recs = Except.ok s →
      ∀ d k, 0 ≤ s.cell d k ∧
        ((∀ r ∈ recs, ¬(r.date = d ∧ r.epic_name = some k)) → s.cell d k = 0)) := by
  constructor
  · intro h d k
    obtain ⟨t, ts, hk, rfl⟩ := aggregate_ok _ _ _ h
    have hkpos : ∀ u ∈ t :: ts, 0 ≤ u.2.2 := by
      intro u hu
      rw [← hk] at hu
      obtain ⟨r, hr, _, _, hh⟩ := mem_keptOf.mp hu
      rw [hh]
      exact hpos r hr
    refine ⟨buildSeries_cell_nonneg t ts hkpos d k, ?_⟩
    intro habs
    refine buildSeries_cell_absent t ts d k ?_
    intro u hu hdk
    rw [← hk] at hu
    obtain ⟨r, hr, hkey, hdate, _⟩ := mem_keptOf.mp hu
    have hass : some r.assignee = some u.2.1 := hkey
    refine habs r hr ⟨?_, ?_⟩
    · rw [← hdate]
      exact hdk.1
    · rw [Option.some_inj.mp hass]
      exact hdk.2
  · intro h d k
    obtain ⟨t, ts, hk, rfl⟩ := aggregate_ok _ _ _ h
    have hkpos : ∀ u ∈ t :: ts, 0 ≤ u.2.2 := by
      intro u hu
      rw [← hk] at hu
      obtain ⟨r, hr, _, _, hh⟩ := mem_keptOf.mp hu
      rw [hh]
      exact hpos r hr
    refine ⟨buildSeries_cell_nonneg t ts hkpos d k, ?_⟩
    intro habs
    refine buildSeries_cell_absent t ts d k ?_
    intro u hu hdk
    rw [← hk] at hu
    obtain ⟨r, hr, hkey, hdate, _⟩ := mem_keptOf.mp hu
    refine habs r hr ⟨?_, ?_⟩
    · rw [← hdate]
      exact hdk.1
    · rw [hkey, hdk.2]

/-- Witness for c6_cells: on the single-record input the absent pair
(day 5, assignee b) yields 0 and the present cell is non-negative. -/
theorem c6_witness :
    (get_assignee_hour_per_day_df c6recs).map (fun s => s.cell 5 "b") =
      Except.ok (0 : ℚ) ∧
    (get_assignee_hour_per_day_df c6recs).map (fun s => decide (0 ≤ s.cell 0 "a")) =
      Except.ok true := by
  have hok : get_assignee_hour_per_day_df c6recs
      = Except.ok (buildSeries (0, "a", (2 : ℚ)) []) := rfl
  have h := (c6_cells c6recs (buildSeries (0, "a", (2 : ℚ)) []) (by decide)).1 hok
  constructor
  · rw [hok]
    show Except.ok ((buildSeries (0, "a", (2 : ℚ)) []).cell 5 "b") = Except.ok (0 : ℚ)
    rw [(h 5 "b").2 (by decide)]
  · rw [hok]
    show Except.ok (decide (0 ≤ (buildSeries (0, "a", (2 : ℚ)) []).cell 0 "a")) =
      Except.ok true
    rw [decide_eq_true ((h 0 "a").1)]

/-- C3 counterexample: on an allocation set holding a 5-hour record with a
null epic_name and a 3-hour record of epic E, the per-epic series has E as
its only column and carries only the 3 hours: the null-epic record forms no
unknown-epic group and is dropped from the aggregation, contradicting the
claim. -/
theorem c3_counterexample :
    c3recs.map (fun r => r.epic_name) = [none, some "E"] ∧
    c3recs.map (fun r => r.hour) = [(5 : ℚ), 3] ∧
    (get_project_hour_per_day_df c3recs).map (fun s => s.cols) = Except.ok ["E"] ∧
    (get_project_hour_per_day_df c3recs).map (fun s => s.cell 0 "E") =
      Except.ok (3 : ℚ) := by
  refine ⟨rfl, rfl, rfl, ?_⟩
  show Except.ok ((buildSeries (0, "E", (3 : ℚ)) []).cell 0 "E") = Except.ok (3 : ℚ)
  norm_num [buildSeries]

/-- C3 amended: a merged row whose user-story or epic link resolves to
nothing is kept with a null epic_name (left-join semantics); however the
per-epic aggregation drops records with a null epic_name during grouping
(pandas groupby excludes null keys), so such rows form no "unknown epic"
group: the grouped rows are exactly those of the non-null-epic records and
every column of the series comes from a record with that epic. -/
theorem c3_amended :
    (∀ (tasks : List TaskIn) (userstories : List Userstory) (epics : List EpicRow),
      (userstories.map (fun u => u.userstory_id)).Nodup →
      (epics.map (fun e => e.userstory_id)).Nodup →
      merge_data tasks userstories epics = Except.ok (tasks.map (mergeRow epics))) ∧
    (∀ (epics : List EpicRow) (t : TaskIn),
      (∀ e ∈ epics, e.userstory_id ≠ t.userstory_id) →
      (mergeRow epics t).epic_name = none) ∧
    (∀ recs : List AllocRecord,
      keptOf (fun r => r.epic_name) recs =
        keptOf (fun r => r.epic_name) (recs.filter (fun r => r.epic_name.isSome))) ∧
    (∀ (recs : List AllocRecord) (s : CalendarSeries),
      get_project_hour_per_day_df recs = Except.ok s →
      ∀ k ∈ s.cols, ∃ r ∈ recs, r.epic_name = some k) := by
  refine ⟨?_, ?_, ?_, ?_⟩
  · intro tasks userstories epics h1 h2
    unfold merge_data
    rw [if_pos h1, if_pos h2]
  · intro epics t h
    unfold mergeRow
    have hfind : epics.find? (fun e => e.userstory_id == t.userstory_id) = none := by
      rw [List.find?_eq_none]
      intro e he
      simp only [ne_eq, beq_iff_eq]
      exact h e he
    rw [hfind]
    rfl
  · intro recs
    induction recs with
    | nil => rfl
    | cons r t ih =>
      cases hr : r.epic_name with
      | none => simpa [keptOf, List.filter_cons, hr] using ih
      | some k => simpa [keptOf, List.filter_cons, hr] using ih
  · intro recs s h k hk
    obtain ⟨t, ts, hkk, rfl⟩ := aggregate_ok _ _ _ h
    rw [buildSeries_cols, List.mem_dedup, ← hkk] at hk
    obtain ⟨u, hu, hku⟩ := List.mem_map.mp hk
    obtain ⟨r, hr, hkey, _, _⟩ := mem_keptOf.mp hu
    exact ⟨r, hr, by rw [hkey, hku]⟩

/-- Witness for c3_amended: a task of user story 2 with no epics merges to
the single row with a null epic_name. -/
theorem c3_witness :
    merge_data [c3task] [] [] = Except.ok [mergeRow [] c3task] ∧
    (mergeRow [] c3task).epic_name = none := by
  have h := c3_amended
  exact ⟨h.1 [c3task] [] [] (by decide) (by decide),
    h.2.1 [] c3task (by intro e he; cases he)⟩

/-- C5 counterexample: in an allocation set with a null-epic record on day 0
and an epic-E record on day 5, the per-epic series has the one-day index
[5], not the inclusive range of the full allocation set from day 0 to day 5,
contradicting the claim. -/
theorem c5_counterexample :
    c5recs.map (fun r => r.date) = [0, 5] ∧
    (get_project_hour_per_day_df c5recs).map (fun s => s.dates) =
      Except.ok [5] ∧
    ([5] : List Nat) ≠ dateRange 0 5 := by
  exact ⟨rfl, rfl, by decide⟩

/-- C5 amended: every produced pivoted series has a duplicate-free,
consecutive, gap-free date index running exactly from the minimum to the
maximum date of the records retained by its grouping: all records for the
assignee series, the records with non-null epic_name for the epic series
(weekend and holiday dates inside the range are present regardless of
data). -/
theorem c5_amended (recs : List AllocRecord) (s : CalendarSeries) :
    (get_assignee_hour_per_day_df recs = Except.ok s →
      calendarComplete s.dates (recs.map (fun r => r.date))) ∧
    (get_project_hour_per_day_df recs = Except.ok s →
      calendarComplete s.dates
        ((keptOf (fun r => r.epic_name) recs).map (fun u => u.1))) := by
  constructor
  · intro h
    obtain ⟨t, ts, hk, rfl⟩ := aggregate_ok _ _ _ h
    have hcc := buildSeries_calendarComplete t ts
    rw [← hk, keptOf_assignee] at hcc
    have hmaps : (recs.map (fun r => (r.date, r.assignee, r.hour))).map
        (fun u => u.1) = recs.map (fun r => r.date) := by
      rw [List.map_map]
      rfl
    rwa [hmaps] at hcc
  · intro h
    obtain ⟨t, ts, hk, rfl⟩ := aggregate_ok _ _ _ h
    have hcc := buildSeries_calendarComplete t ts
    rwa [← hk] at hcc

/-- Witness for c5_amended: for the two-record input on days 2 and 4 the
assignee series index contains the in-between day 3. -/
theorem c5_witness :
    (get_assignee_hour_per_day_df c5wrecs).map (fun s => decide (3 ∈ s.dates)) =
      Except.ok true := by
  have hok : get_assignee_hour_per_day_df c5wrecs
      = Except.ok (buildSeries (2, "a", (1 : ℚ)) [(4, "b", (2 : ℚ))]) := rfl
  have hcc := (c5_amended c5wrecs
    (buildSeries (2, "a", (1 : ℚ)) [(4, "b", (2 : ℚ))])).1 hok
  have h2 : (2 : Nat) ∈ c5wrecs.map (fun r => r.date) := by decide
  have h4 : (4 : Nat) ∈ c5wrecs.map (fun r => r.date) := by decide
  have h3 := hcc.2.2.2.2 2 3 4 (hcc.2.2.1 2 h2) (hcc.2.2.1 4 h4)
    (by norm_num) (by norm_num)
  rw [hok]
  show Except.ok
    (decide (3 ∈ (buildSeries (2, "a", (1 : ℚ)) [(4, "b", (2 : ℚ))]).dates)) =
    Except.ok true
  rw [decide_eq_true h3]

end Timesheet
